import Mathlib

/-!
Shallow embedding of the nodoze tone daemon.

The embedding follows src/audio.rs (sample synthesis with fade envelope,
integer format adaptation, device selection), src/daemon.rs (wall-clock
scheduler loop) and src/config.rs (configuration record).  Machine floats
are idealised as rationals (reals where the sine function is involved);
the u64 casts of the source are modelled explicitly, including truncation
toward zero and saturation.
-/

namespace Nodoze

/-- Configuration record mirroring Config in src/config.rs. -/
structure Config where
  frequency : ℚ
  duration : ℕ
  interval : ℕ
  fade_duration : ℚ
  volume : ℚ
  device : String

/-- Rust cast of a nonnegative f64 to u64 (`as u64`): truncation toward
zero, saturating at u64::MAX, with negative values clamping to 0. -/
def castU64 (q : ℚ) : ℕ := min (⌊q⌋.toNat) (2 ^ 64 - 1)

/-- Embeds `let total_samples = (config.duration as f64 * sample_rate) as u64`
(src/audio.rs line 87). -/
def totalSamplesOf (duration : ℕ) (rate : ℚ) : ℕ := castU64 ((duration : ℚ) * rate)

/-- Embeds `let fade_samples = (config.fade_duration * sample_rate) as u64`
(src/audio.rs line 88). -/
def fadeSamplesOf (fadeDuration rate : ℚ) : ℕ := castU64 (fadeDuration * rate)

/-- Embeds `let volume = config.volume.clamp(0.0, 1.0)` (src/audio.rs line 86). -/
def gainOf (v : ℚ) : ℚ := min (max v 0) 1

/-- Embeds the fade envelope of write_samples (src/audio.rs lines 211-219):
fade-in branch first, then the fade-out test `n > total_samples - fade_samples`
(u64 subtraction, here ℕ subtraction; write_samples only evaluates this for
n < total, where the two agree, as certified by checkedEnvelope below). -/
def envelope (total fade n : ℕ) : ℚ :=
  if n < fade then (n : ℚ) / (fade : ℚ)
  else if total - fade < n then ((total - n : ℕ) : ℚ) / (fade : ℚ)
  else 1

/-- Modelled from the spec (section 4.2): the three-region piecewise
envelope written with mathematical (integer) subtraction, used as the
specification side of the refinement claims. -/
def specEnvelope (total fade n : ℕ) : ℚ :=
  if (n : ℚ) < (fade : ℚ) then (n : ℚ) / (fade : ℚ)
  else if (total : ℚ) - (fade : ℚ) < (n : ℚ) then ((total : ℚ) - (n : ℚ)) / (fade : ℚ)
  else 1

/-- Checked u64 subtraction: some on success, none on underflow (the case
that would panic in a debug build). -/
def checkedSub (a b : ℕ) : Option ℕ := if b ≤ a then some (a - b) else none

/-- The envelope computation of write_samples with both u64 subtractions
checked for underflow, mirroring the lazy evaluation order of the source:
the subtraction total - fade is evaluated only when the fade-in test fails. -/
def checkedEnvelope (total fade n : ℕ) : Option ℚ :=
  if n < fade then some ((n : ℚ) / (fade : ℚ))
  else (checkedSub total fade).bind (fun d =>
    if d < n then (checkedSub total n).map (fun m => (m : ℚ) / (fade : ℚ))
    else some 1)

/-- The per-frame envelope evaluation including the early-out for
n >= total_samples (src/audio.rs lines 198-204), with checked subtractions. -/
def checkedFrame (total fade n : ℕ) : Option ℚ :=
  if total ≤ n then some 0 else checkedEnvelope total fade n

/-- Per-session synthesis parameters captured by the audio callback closure
in play_tone (src/audio.rs lines 100-162). -/
structure Params where
  rate : ℚ
  freq : ℚ
  gain : ℚ
  total : ℕ
  fade : ℕ
  channels : ℕ

/-- Builds the callback parameters exactly as play_tone does
(src/audio.rs lines 82-88). -/
def paramsOf (cfg : Config) (rate : ℚ) (channels : ℕ) : Params :=
  { rate := rate
    freq := cfg.frequency
    gain := gainOf cfg.volume
    total := totalSamplesOf cfg.duration rate
    fade := fadeSamplesOf cfg.fade_duration rate
    channels := channels }

/-- State shared with the callback: the atomic sample clock and the atomic
completion flag (src/audio.rs lines 90-91). -/
structure CbState where
  clock : ℕ
  finished : Bool

/-- The sample value computed by write_samples for an index n < total
(src/audio.rs lines 206-221): sin(2*pi*f*(n/rate)) times the envelope,
then times the volume gain. -/
noncomputable def frameValue (p : Params) (n : ℕ) : ℝ :=
  Real.sin (2 * Real.pi * (p.freq : ℝ) * ((n : ℝ) / (p.rate : ℝ)))
    * ((envelope p.total p.fade n : ℚ) : ℝ) * (p.gain : ℝ)

/-- One loop iteration of write_samples (src/audio.rs lines 195-226):
fetch-and-increment the sample clock, then either write zeros and set the
completion flag (n >= total) or write the synthesized sample to every
channel of the frame. -/
noncomputable def stepFrame (p : Params) (s : CbState) : List ℝ × CbState :=
  if p.total ≤ s.clock then
    (List.replicate p.channels 0, ⟨s.clock + 1, true⟩)
  else
    (List.replicate p.channels (frameValue p s.clock), ⟨s.clock + 1, s.finished⟩)

/-- Embeds write_samples (src/audio.rs lines 184-227) processing a buffer
of the given number of frames. -/
noncomputable def write_samples (p : Params) : ℕ → CbState → List (List ℝ) × CbState
  | 0, s => ([], s)
  | frames + 1, s =>
      let first := stepFrame p s
      let rest := write_samples p frames first.2
      (first.1 :: rest.1, rest.2)

/-- Modelled from the spec (section 4.2): the synthesizer output formula
sin(2*pi*frequency*(n/sampleRate)) times the piecewise envelope times the
clamped gain, used as the specification side of claim C1. -/
noncomputable def specSynthesize (rate freq gain : ℚ) (total fade n : ℕ) : ℝ :=
  Real.sin (2 * Real.pi * (freq : ℝ) * ((n : ℝ) / (rate : ℝ)))
    * ((specEnvelope total fade n : ℚ) : ℝ) * (gain : ℝ)

/-- Truncation of a rational toward zero, the rounding performed by Rust
float-to-integer `as` casts. -/
def truncQ (q : ℚ) : ℤ := if 0 ≤ q then ⌊q⌋ else ⌈q⌉

/-- Rust cast of f32 to i16: truncation toward zero, saturating at the
i16 range (src/audio.rs line 135 applies it to sample * i16::MAX). -/
def castI16 (q : ℚ) : ℤ := min 32767 (max (-32768) (truncQ q))

/-- Rust cast of f32 to u16: truncation toward zero, saturating at the
u16 range (src/audio.rs line 157). -/
def castU16 (q : ℚ) : ℕ := (min 65535 (max 0 (truncQ q))).toNat

/-- Signed 16-bit format adaptation `(sample * i16::MAX as f32) as i16`
(src/audio.rs line 135). -/
def sampleToI16 (s : ℚ) : ℤ := castI16 (s * 32767)

/-- Unsigned 16-bit format adaptation
`((sample * 0.5 + 0.5) * u16::MAX as f32) as u16` (src/audio.rs line 157). -/
def sampleToU16 (s : ℚ) : ℕ := castU16 ((s * (1 / 2) + 1 / 2) * 65535)

/-- Device resolution and enumeration errors of src/audio.rs, with the
message formatting abstracted into constructors. -/
inductive DeviceError where
  | noDefault
  | enumFailed (msg : String)
  | notFound (query : String)
deriving DecidableEq

/-- Substring test on character lists, the semantics of Rust
`String::contains`. -/
def listContainsSub (hay pat : List Char) : Bool :=
  if pat.isPrefixOf hay then true
  else
    match hay with
    | [] => false
    | _ :: t => listContainsSub t pat

/-- Case-insensitive substring test
`hay.to_lowercase().contains(&pat.to_lowercase())` (src/audio.rs line 30),
with lowercasing modelled per character. -/
def strContainsSub (hay pat : String) : Bool :=
  listContainsSub (hay.toList.map Char.toLower) (pat.toList.map Char.toLower)

/-- Whether a device matches a query: it has a name and the lowercased name
contains the lowercased query (src/audio.rs lines 29-33). -/
def matchesName {δ : Type} (nameOf : δ → Option String) (query : String) (d : δ) : Bool :=
  match nameOf d with
  | none => false
  | some dn => strContainsSub dn query

/-- The device loop of get_device (src/audio.rs lines 28-36): first device
whose name contains the query, else the not-found error. -/
def findDevice {δ : Type} (nameOf : δ → Option String) (query : String) :
    List δ → Except DeviceError δ
  | [] => .error (.notFound query)
  | d :: rest =>
      match nameOf d with
      | some dn =>
          if strContainsSub dn query then .ok d else findDevice nameOf query rest
      | none => findDevice nameOf query rest

/-- Embeds get_device (src/audio.rs lines 15-37) over an abstract host:
defaultDev is the default output device (if any), devs the enumeration
result, nameOf the device_name helper. -/
def get_device {δ : Type} (defaultDev : Option δ) (devs : Except String (List δ))
    (nameOf : δ → Option String) (name : String) : Except DeviceError δ :=
  if name = "" then
    match defaultDev with
    | some d => .ok d
    | none => .error .noDefault
  else
    match devs with
    | .error e => .error (.enumFailed e)
    | .ok ds => findDevice nameOf name ds

/-- The default device display name used by list_devices
(src/audio.rs lines 47-50): the name of the default device, or the empty
string when there is none or it has no name. -/
def defaultNameOf {δ : Type} (defaultDev : Option δ) (nameOf : δ → Option String) : String :=
  (defaultDev.bind nameOf).getD ""

/-- Embeds list_devices (src/audio.rs lines 40-64): every named device in
enumeration order, appending the marker to entries whose name equals the
default name. -/
def list_devices {δ : Type} (defaultDev : Option δ) (devs : Except String (List δ))
    (nameOf : δ → Option String) : Except DeviceError (List String) :=
  match devs with
  | .error e => .error (.enumFailed e)
  | .ok ds =>
      .ok (ds.filterMap (fun d =>
        (nameOf d).map (fun n =>
          if n = defaultNameOf defaultDev nameOf then n ++ " (default)" else n)))

/-- Embeds `let elapsed = last_play.elapsed().unwrap_or(interval)`
(src/daemon.rs line 43): wall-clock difference, falling back to the
interval when the clock reads earlier than last_play. -/
def elapsedAt (interval now lastPlay : ℚ) : ℚ :=
  if lastPlay ≤ now then now - lastPlay else interval

/-- The due test `elapsed >= interval` of the daemon loop
(src/daemon.rs line 45). -/
def dueAt (interval now lastPlay : ℚ) : Bool :=
  decide (interval ≤ elapsedAt interval now lastPlay)

/-- One iteration of the daemon loop body (src/daemon.rs lines 40-66) as a
transformer of last_play: nowPoll is the wall clock at the due test,
nowAfter the wall clock after a playback attempt, playOk whether play_tone
succeeded.  Only a due, successful playback advances last_play. -/
def schedStep (interval nowPoll nowAfter : ℚ) (playOk : Bool) (lastPlay : ℚ) : ℚ :=
  if dueAt interval nowPoll lastPlay then
    (if playOk then nowAfter else lastPlay)
  else lastPlay

/-! ### Helper lemmas -/

/-- Scenario A total sample count. -/
theorem totalSamples_scenarioA : totalSamplesOf 15 48000 = 720000 := by
  norm_num [totalSamplesOf, castU64]; omega

/-- Scenario A fade sample count. -/
theorem fadeSamples_scenarioA : fadeSamplesOf 1 48000 = 48000 := by
  norm_num [fadeSamplesOf, castU64]; omega

/-- On the domain actually reached by write_samples (n < total), the
source envelope with ℕ subtraction agrees with the mathematical
piecewise envelope of the spec. -/
theorem envelope_eq_specEnvelope (total fade n : ℕ) (h : n < total) :
    envelope total fade n = specEnvelope total fade n := by
  unfold envelope specEnvelope
  by_cases h1 : n < fade
  · have h1q : (n : ℚ) < (fade : ℚ) := by exact_mod_cast h1
    rw [if_pos h1, if_pos h1q]
  · have h1q : ¬((n : ℚ) < (fade : ℚ)) := by exact_mod_cast h1
    have hf : fade ≤ n := not_lt.mp h1
    have hft : fade ≤ total := hf.trans h.le
    rw [if_neg h1, if_neg h1q]
    by_cases h2 : total - fade < n
    · have h2q : (total : ℚ) - (fade : ℚ) < (n : ℚ) := by
        rw [← Nat.cast_sub hft]; exact_mod_cast h2
      rw [if_pos h2, if_pos h2q, Nat.cast_sub h.le]
    · have h2q : ¬((total : ℚ) - (fade : ℚ) < (n : ℚ)) := by
        rw [← Nat.cast_sub hft]; exact_mod_cast h2
      rw [if_neg h2, if_neg h2q]

/-- The checked (panic-free in a debug build) envelope computation agrees
with the unchecked model on every index below the total sample count. -/
theorem checkedEnvelope_eq (total fade n : ℕ) (h : n < total) :
    checkedEnvelope total fade n = some (envelope total fade n) := by
  unfold checkedEnvelope envelope
  by_cases h1 : n < fade
  · rw [if_pos h1, if_pos h1]
  · have hf : fade ≤ n := not_lt.mp h1
    have hft : fade ≤ total := hf.trans h.le
    rw [if_neg h1, if_neg h1]
    rw [show checkedSub total fade = some (total - fade) from if_pos hft,
      Option.some_bind]
    by_cases h2 : total - fade < n
    · rw [if_pos h2, if_pos h2,
        show checkedSub total n = some (total - n) from if_pos h.le]
      rfl
    · rw [if_neg h2, if_neg h2]

/-- Truncation toward zero lies below any integer upper bound of the
argument. -/
theorem truncQ_le {q : ℚ} {b : ℤ} (h : q ≤ (b : ℚ)) : truncQ q ≤ b := by
  unfold truncQ
  split
  · simpa using Int.floor_mono h
  · simpa using Int.ceil_mono h

/-- Truncation toward zero lies above any integer lower bound of the
argument. -/
theorem le_truncQ {q : ℚ} {a : ℤ} (h : (a : ℚ) ≤ q) : a ≤ truncQ q := by
  unfold truncQ
  split
  · simpa using Int.floor_mono h
  · simpa using Int.ceil_mono h

/-- In a duplicate-free list, a member is counted exactly once by the
boolean equality predicate. -/
theorem countP_beq_eq_one {α : Type} [BEq α] [LawfulBEq α] {l : List α} {a : α}
    (hnd : l.Nodup) (hmem : a ∈ l) : l.countP (fun s => s == a) = 1 := by
  induction l with
  | nil => cases hmem
  | cons x xs ih =>
      have hx : x ∉ xs := (List.nodup_cons.mp hnd).1
      rw [List.countP_cons]
      rcases List.mem_cons.mp hmem with rfl | hmem2
      · have h0 : xs.countP (fun s => s == a) = 0 := by
          rw [List.countP_eq_zero]
          intro s hs
          simp only [beq_iff_eq]
          intro hcontra
          exact hx (hcontra ▸ hs)
        simp [h0]
      · have hxa : x ≠ a := by
          intro hcontra
          exact hx (hcontra ▸ hmem2)
        rw [ih (List.nodup_cons.mp hnd).2 hmem2]
        simp [hxa]

/-! ### Claim theorems -/

/-- C1: for every sample index n with n < totalSamples, the synthesized
frame written by the callback equals the spec formula
sin(2*pi*frequency*(n/sampleRate)) times the three-region piecewise
envelope times the clamped gain, replicated over all channels; in the
scenario frequency=20, duration=15, fadeDuration=1, sampleRate=48000 the
sample at n=0 is 0 and the sample at n=48000 is sin(2*pi*20*1)*gain. -/
theorem C1_synthesis :
    (∀ (cfg : Config) (rate : ℚ) (channels n : ℕ) (fin : Bool),
      n < (paramsOf cfg rate channels).total →
      stepFrame (paramsOf cfg rate channels) ⟨n, fin⟩ =
        (List.replicate channels
          (specSynthesize rate cfg.frequency (gainOf cfg.volume)
            (totalSamplesOf cfg.duration rate) (fadeSamplesOf cfg.fade_duration rate) n),
         ⟨n + 1, fin⟩)) ∧
    (∀ (v : ℚ) (channels : ℕ),
      (stepFrame (paramsOf ⟨20, 15, 540, 1, v, ""⟩ 48000 channels) ⟨0, false⟩).1 =
        List.replicate channels 0) ∧
    (∀ (v : ℚ) (channels : ℕ),
      (stepFrame (paramsOf ⟨20, 15, 540, 1, v, ""⟩ 48000 channels) ⟨48000, false⟩).1 =
        List.replicate channels
          (Real.sin (2 * Real.pi * 20 * 1) * ((gainOf v : ℚ) : ℝ))) := by
  refine ⟨?_, ?_, ?_⟩
  · intro cfg rate channels n fin h
    unfold stepFrame
    rw [if_neg (not_le.mpr h)]
    unfold frameValue specSynthesize paramsOf
    dsimp only
    have h' : n < totalSamplesOf cfg.duration rate := h
    rw [envelope_eq_specEnvelope _ _ _ h']
  · intro v channels
    have he : envelope 720000 48000 0 = 0 := by norm_num [envelope]
    simp only [stepFrame, paramsOf, totalSamples_scenarioA, fadeSamples_scenarioA]
    rw [if_neg (by norm_num : ¬((720000 : ℕ) ≤ 0))]
    simp only [frameValue]
    simp only [totalSamples_scenarioA, fadeSamples_scenarioA, he]
    simp
  · intro v channels
    have he : envelope 720000 48000 48000 = 1 := by norm_num [envelope]
    simp only [stepFrame, paramsOf, totalSamples_scenarioA, fadeSamples_scenarioA]
    rw [if_neg (by norm_num : ¬((720000 : ℕ) ≤ 48000))]
    simp only [frameValue]
    simp only [totalSamples_scenarioA, fadeSamples_scenarioA, he]
    push_cast
    norm_num

/-- C1 witness: the refinement conjunct instantiated at a concrete
configuration and sample index. -/
theorem C1_synthesis_witness :
    stepFrame (paramsOf ⟨20, 15, 540, 1, 1 / 20, ""⟩ 48000 2) ⟨5, false⟩ =
      (List.replicate 2
        (specSynthesize 48000 20 (gainOf (1 / 20)) (totalSamplesOf 15 48000)
          (fadeSamplesOf 1 48000) 5),
       ⟨6, false⟩) :=
  C1_synthesis.1 ⟨20, 15, 540, 1, 1 / 20, ""⟩ 48000 2 5 false
    (by rw [show (paramsOf ⟨20, 15, 540, 1, 1 / 20, ""⟩ 48000 2).total =
          totalSamplesOf 15 48000 from rfl, totalSamples_scenarioA]; norm_num)

/-- C3 counterexample: the source truncates rather than rounds when
converting fadeDuration * sampleRate to u64; with fadeDuration = 0.5 and
sampleRate = 44101 the product is 22050.5, which the code turns into
22050 while rounding would give 22051. -/
theorem C3_counterexample :
    fadeSamplesOf (1 / 2) 44101 = 22050 ∧ round ((1 / 2 : ℚ) * 44101) = 22051 := by
  constructor
  · norm_num [fadeSamplesOf, castU64]
    omega
  · rw [round_eq]
    norm_num

/-- C3 (amended): totalSamples and fadeSamples are computed by the Rust
`as u64` cast, i.e. truncation toward zero (floor on nonnegative values,
saturating at u64::MAX); for an integer sample rate totalSamples equals
duration * sampleRate exactly (so rounding and truncation coincide
there), and the Scenario A values 720000 and 48000 hold. -/
theorem C3_sample_counts :
    (∀ fd r : ℚ, 0 ≤ fd * r → ⌊fd * r⌋ ≤ 2 ^ 64 - 1 →
      (fadeSamplesOf fd r : ℤ) = ⌊fd * r⌋) ∧
    (∀ d r : ℕ, d * r ≤ 2 ^ 64 - 1 → totalSamplesOf d (r : ℚ) = d * r) ∧
    totalSamplesOf 15 48000 = 720000 ∧ fadeSamplesOf 1 48000 = 48000 := by
  refine ⟨?_, ?_, totalSamples_scenarioA, fadeSamples_scenarioA⟩
  · intro fd r h0 hle
    have hfl : 0 ≤ ⌊fd * r⌋ := Int.floor_nonneg.mpr h0
    unfold fadeSamplesOf castU64
    norm_num at hle ⊢
    omega
  · intro d r hle
    have hcast : ((d : ℚ) * (r : ℚ)) = ((d * r : ℕ) : ℚ) := by push_cast; ring
    unfold totalSamplesOf castU64
    rw [hcast, Int.floor_natCast]
    norm_num at hle ⊢
    omega

/-- C3 witness: the truncation characterization instantiated at
fadeDuration = 1, sampleRate = 48000. -/
theorem C3_sample_counts_witness :
    (fadeSamplesOf 1 48000 : ℤ) = ⌊(1 : ℚ) * 48000⌋ :=
  C3_sample_counts.1 1 48000 (by norm_num) (by norm_num)

/-- C4: for every sample s in [-1, 1] the Format Adapter produces
truncQ(s * 32767) in signed 16-bit and truncQ((s * 0.5 + 0.5) * 65535)
in unsigned 16-bit, where truncQ is the truncating integer conversion of
the target language; applied to the sample 0.0 it yields exactly 0 in
signed 16-bit and the mid-scale value 32767 in unsigned 16-bit. -/
theorem C4_format_adapter :
    (∀ s : ℚ, -1 ≤ s → s ≤ 1 →
      sampleToI16 s = truncQ (s * 32767) ∧
      (sampleToU16 s : ℤ) = truncQ ((s * (1 / 2) + 1 / 2) * 65535)) ∧
    sampleToI16 0 = 0 ∧ sampleToU16 0 = 32767 := by
  refine ⟨?_, ?_, ?_⟩
  · intro s h1 h2
    constructor
    · have hlo : ((-32767 : ℤ) : ℚ) ≤ s * 32767 := by push_cast; linarith
      have hhi : s * 32767 ≤ ((32767 : ℤ) : ℚ) := by push_cast; linarith
      have hl := le_truncQ hlo
      have hr := truncQ_le hhi
      unfold sampleToI16 castI16
      omega
    · have hlo : ((0 : ℤ) : ℚ) ≤ (s * (1 / 2) + 1 / 2) * 65535 := by push_cast; linarith
      have hhi : (s * (1 / 2) + 1 / 2) * 65535 ≤ ((65535 : ℤ) : ℚ) := by push_cast; linarith
      have hl := le_truncQ hlo
      have hr := truncQ_le hhi
      unfold sampleToU16 castU16
      omega
  · norm_num [sampleToI16, castI16, truncQ]
  · have h : truncQ ((0 * (1 / 2) + 1 / 2) * 65535) = 32767 := by
      unfold truncQ
      rw [if_pos (by norm_num)]
      norm_num
    unfold sampleToU16 castU16
    rw [h]
    rfl

/-- C4 witness: the adapter characterization instantiated at s = 1/2. -/
theorem C4_format_adapter_witness :
    sampleToI16 (1 / 2) = truncQ ((1 / 2) * 32767) ∧
      (sampleToU16 (1 / 2) : ℤ) = truncQ (((1 / 2) * (1 / 2) + 1 / 2) * 65535) :=
  C4_format_adapter.1 (1 / 2) (by norm_num) (by norm_num)

/-- C2: for every sample index n with n >= totalSamples, the callback
writes exactly 0.0 to every channel of that frame and sets the
CompletionFlag to true (idempotently, whatever its previous value); over
a whole buffer, every frame processed from such a state is all zeros and
the flag is true after processing at least one frame. -/
theorem C2_termination :
    (∀ (p : Params) (s : CbState), p.total ≤ s.clock →
      stepFrame p s = (List.replicate p.channels 0, ⟨s.clock + 1, true⟩)) ∧
    (∀ (p : Params) (k : ℕ) (s : CbState), p.total ≤ s.clock →
      (∀ fr ∈ (write_samples p k s).1, fr = List.replicate p.channels 0) ∧
      (0 < k → (write_samples p k s).2.finished = true)) := by
  have hstep : ∀ (p : Params) (s : CbState), p.total ≤ s.clock →
      stepFrame p s = (List.replicate p.channels 0, ⟨s.clock + 1, true⟩) := by
    intro p s h
    unfold stepFrame
    rw [if_pos h]
  refine ⟨hstep, ?_⟩
  intro p k
  induction k with
  | zero =>
      intro s h
      exact ⟨by intro fr hfr; simp [write_samples] at hfr, by intro h0; exact absurd h0 (lt_irrefl 0)⟩
  | succ k ih =>
      intro s h
      have hs : stepFrame p s = (List.replicate p.channels 0, ⟨s.clock + 1, true⟩) := hstep p s h
      have hnext : p.total ≤ s.clock + 1 := h.trans (Nat.le_succ _)
      constructor
      · intro fr hfr
        simp only [write_samples, hs, List.mem_cons] at hfr
        rcases hfr with hfr | hfr
        · exact hfr
        · exact (ih ⟨s.clock + 1, true⟩ hnext).1 fr hfr
      · intro _
        rcases Nat.eq_zero_or_pos k with hk | hk
        · subst hk
          simp [write_samples, hs]
        · simp only [write_samples, hs]
          exact (ih ⟨s.clock + 1, true⟩ hnext).2 hk

/-- C2 witness: a concrete instantiation of the termination theorem. -/
theorem C2_termination_witness :
    stepFrame ⟨48000, 20, 1, 10, 2, 2⟩ ⟨10, false⟩ = (List.replicate 2 0, ⟨11, true⟩) :=
  C2_termination.1 ⟨48000, 20, 1, 10, 2, 2⟩ ⟨10, false⟩ (le_refl 10)

/-- C5 counterexample: with totalSamples = 10 and fadeSamples = 8 (a fade
longer than half the tone), the indices 3 and 4 both lie in the region
totalSamples - fadeSamples < n <= totalSamples, yet the envelope strictly
increases from 3 to 4, so the claimed strict decrease on that region fails. -/
theorem C5_counterexample :
    10 - 8 < 3 ∧ (3 : ℕ) < 4 ∧ (4 : ℕ) ≤ 10 ∧ (0 : ℕ) < 8 ∧
      envelope 10 8 3 < envelope 10 8 4 := by
  refine ⟨by norm_num, by norm_num, by norm_num, by norm_num, ?_⟩
  norm_num [envelope]

/-- C5 (amended): for every fadeSamples > 0 the envelope is strictly
increasing on 0 <= n < fadeSamples with envelope(0) = 0, and, provided
the fade regions do not overlap (2 * fadeSamples <= totalSamples), it is
strictly decreasing on totalSamples - fadeSamples < n <= totalSamples
with envelope(totalSamples) <= 0. -/
theorem C5_envelope_monotone (total fade : ℕ) (hfade : 0 < fade) :
    (∀ m n : ℕ, m < n → n < fade → envelope total fade m < envelope total fade n) ∧
    envelope total fade 0 = 0 ∧
    (2 * fade ≤ total →
      (∀ m n : ℕ, total - fade < m → m < n → n ≤ total →
        envelope total fade n < envelope total fade m) ∧
      envelope total fade total ≤ 0) := by
  have hfq : (0 : ℚ) < (fade : ℚ) := by exact_mod_cast hfade
  refine ⟨?_, ?_, ?_⟩
  · intro m n hmn hn
    have hm : m < fade := hmn.trans hn
    unfold envelope
    rw [if_pos hm, if_pos hn]
    exact (div_lt_div_iff_of_pos_right hfq).mpr (by exact_mod_cast hmn)
  · unfold envelope
    rw [if_pos hfade]
    simp
  · intro hsep
    have hregion : ∀ n : ℕ, total - fade < n → n ≤ total →
        envelope total fade n = ((total - n : ℕ) : ℚ) / (fade : ℚ) := by
      intro n h1 h2
      unfold envelope
      rw [if_neg (by omega), if_pos h1]
    constructor
    · intro m n h1 hmn h2
      rw [hregion m h1 (hmn.le.trans h2), hregion n (by omega) h2]
      exact (div_lt_div_iff_of_pos_right hfq).mpr (by exact_mod_cast (by omega : total - n < total - m))
    · rw [hregion total (by omega) (le_refl total)]
      simp

/-- C5 witness: concrete instantiation with totalSamples = 10,
fadeSamples = 2. -/
theorem C5_envelope_monotone_witness :
    envelope 10 2 0 < envelope 10 2 1 ∧ envelope 10 2 0 = 0 ∧
      envelope 10 2 10 < envelope 10 2 9 ∧ envelope 10 2 10 ≤ 0 := by
  have h := C5_envelope_monotone 10 2 (by norm_num)
  have h2 := h.2.2 (by norm_num)
  exact ⟨h.1 0 1 (by norm_num) (by norm_num), h.2.1,
    h2.1 9 10 (by norm_num) (by norm_num) (by norm_num), h2.2⟩

/-- C10 counterexample: with fadeSamples = 20 exceeding totalSamples = 10
and the in-range index n = 5, the per-frame computation does not underflow:
the fade-in test n < fadeSamples succeeds first, so the u64 subtraction
totalSamples - fadeSamples is never evaluated and the frame is produced.
This refutes the claimed necessity of the precondition
fadeSamples <= totalSamples. -/
theorem C10_counterexample :
    10 < 20 ∧ (0 : ℕ) < 5 ∧ (5 : ℕ) < 10 ∧ checkedFrame 10 20 5 = some (1 / 4) := by
  refine ⟨by norm_num, by norm_num, by norm_num, ?_⟩
  norm_num [checkedFrame, checkedEnvelope]

/-- C10 (amended): per-frame sample generation is total for every
configuration and every frame index, with no precondition: the subtraction
totalSamples - fadeSamples is only evaluated when fadeSamples <= n <
totalSamples, which forces fadeSamples < totalSamples, so it cannot
underflow; on indices below totalSamples the checked computation agrees
with the unchecked envelope model. -/
theorem C10_no_underflow :
    (∀ total fade n : ℕ, (checkedFrame total fade n).isSome) ∧
    (∀ total fade n : ℕ, n < total →
      checkedFrame total fade n = some (envelope total fade n)) := by
  have hlt : ∀ total fade n : ℕ, n < total →
      checkedFrame total fade n = some (envelope total fade n) := by
    intro total fade n h
    unfold checkedFrame
    rw [if_neg (not_le.mpr h)]
    exact checkedEnvelope_eq total fade n h
  refine ⟨?_, hlt⟩
  intro total fade n
  by_cases h : total ≤ n
  · unfold checkedFrame
    rw [if_pos h]
    rfl
  · rw [hlt total fade n (not_le.mp h)]
    rfl

/-- C10 witness: concrete instantiation of the totality theorem. -/
theorem C10_no_underflow_witness :
    checkedFrame 10 2 5 = some (envelope 10 2 5) :=
  C10_no_underflow.2 10 2 5 (by norm_num)

/-- The device loop of get_device returns the first enumerated device
whose lowercased name contains the lowercased query, and the not-found
error when there is none. -/
theorem findDevice_eq_find {δ : Type} (nameOf : δ → Option String) (query : String)
    (ds : List δ) :
    findDevice nameOf query ds =
      match ds.find? (matchesName nameOf query) with
      | some d => .ok d
      | none => .error (.notFound query) := by
  induction ds with
  | nil => rfl
  | cons d rest ih =>
      cases hnm : nameOf d with
      | none =>
          simp [findDevice, hnm, List.find?_cons, matchesName, ih]
      | some dn =>
          cases hc : strContainsSub dn query with
          | true => simp [findDevice, hnm, hc, List.find?_cons, matchesName]
          | false => simp [findDevice, hnm, hc, List.find?_cons, matchesName, ih]

/-- C6: device resolution with the empty string returns the host default
output device, or the no-default error when none exists; with a non-empty
name it returns the first enumerated device whose name contains the query
case-insensitively, and the not-found error for a query matching no
enumerated device name. -/
theorem C6_get_device :
    (∀ (δ : Type) (dd : Option δ) (devs : Except String (List δ))
        (nameOf : δ → Option String),
      get_device dd devs nameOf "" =
        match dd with
        | some d => .ok d
        | none => .error .noDefault) ∧
    (∀ (δ : Type) (dd : Option δ) (ds : List δ) (nameOf : δ → Option String)
        (name : String), name ≠ "" →
      get_device dd (.ok ds) nameOf name =
        match ds.find? (matchesName nameOf name) with
        | some d => .ok d
        | none => .error (.notFound name)) ∧
    (∀ (δ : Type) (dd : Option δ) (ds : List δ) (nameOf : δ → Option String)
        (name : String), name ≠ "" →
      (∀ d ∈ ds, matchesName nameOf name d = false) →
      get_device dd (.ok ds) nameOf name = .error (.notFound name)) := by
  have h2 : ∀ (δ : Type) (dd : Option δ) (ds : List δ) (nameOf : δ → Option String)
      (name : String), name ≠ "" →
      get_device dd (.ok ds) nameOf name =
        match ds.find? (matchesName nameOf name) with
        | some d => .ok d
        | none => .error (.notFound name) := by
    intro δ dd ds nameOf name h
    unfold get_device
    rw [if_neg h]
    exact findDevice_eq_find nameOf name ds
  refine ⟨?_, h2, ?_⟩
  · intro δ dd devs nameOf
    unfold get_device
    rw [if_pos rfl]
  · intro δ dd ds nameOf name h hnone
    rw [h2 δ dd ds nameOf name h]
    rw [List.find?_eq_none.mpr (by intro x hx; rw [hnone x hx]; exact Bool.false_ne_true)]

/-- A small concrete host used to instantiate the device theorems:
device 0 and 1 carry names, device 2 has none. -/
def namesEx : ℕ → Option String := fun i =>
  if i = 0 then some ("USB Audio") else if i = 1 then some ("Speakers") else none

/-- C6 witness: concrete resolutions on the small host. -/
theorem C6_get_device_witness :
    get_device (some 0) (Except.ok [0, 1, 2]) namesEx "" = Except.ok 0 ∧
    get_device (some 0) (Except.ok [0, 1, 2]) namesEx "speak" = Except.ok 1 ∧
    get_device (some 0) (Except.ok [0, 1, 2]) namesEx "zzz" =
      Except.error (DeviceError.notFound "zzz") := by
  refine ⟨?_, ?_, ?_⟩
  · rw [C6_get_device.1 ℕ (some 0) (Except.ok [0, 1, 2]) namesEx]
  · rw [C6_get_device.2.1 ℕ (some 0) [0, 1, 2] namesEx "speak" (by decide)]
    rfl
  · exact C6_get_device.2.2 ℕ (some 0) [0, 1, 2] namesEx "zzz" (by decide) (by decide)

/-- Host with two devices that share one display name, both equal to the
default device name. -/
def dupNames : ℕ → Option String := fun _ => some ("Speakers")

/-- C9 counterexample: when two enumerated devices carry the same name as
the default device, list_devices annotates both entries, so enumeration
does not mark exactly one entry. -/
theorem C9_counterexample :
    list_devices (some 0) (Except.ok [0, 1]) dupNames =
      Except.ok ["Speakers (default)", "Speakers (default)"] ∧
    ["Speakers (default)", "Speakers (default)"].countP
      (fun s => s == "Speakers (default)") = 2 := by
  exact ⟨rfl, rfl⟩

/-- C9 (amended): device enumeration returns the ordered display names of
the named devices, annotating exactly those entries whose name equals the
default device name (the empty string when no default exists); when the
names are pairwise distinct, include the default name, and none collides
with the annotated form, exactly one entry carries the annotation. -/
theorem C9_list_devices :
    (∀ (δ : Type) (dd : Option δ) (nameOf : δ → Option String) (e : String),
      list_devices dd (.error e) nameOf = .error (.enumFailed e)) ∧
    (∀ (δ : Type) (dd : Option δ) (ds : List δ) (nameOf : δ → Option String),
      list_devices dd (.ok ds) nameOf =
        .ok ((ds.filterMap nameOf).map
          (fun n => if n = defaultNameOf dd nameOf then n ++ " (default)" else n))) ∧
    (∀ (δ : Type) (dd : Option δ) (ds : List δ) (nameOf : δ → Option String),
      (ds.filterMap nameOf).Nodup →
      defaultNameOf dd nameOf ∈ ds.filterMap nameOf →
      defaultNameOf dd nameOf ++ " (default)" ∉ ds.filterMap nameOf →
      ((ds.filterMap nameOf).map
          (fun n => if n = defaultNameOf dd nameOf then n ++ " (default)" else n)).countP
        (fun s => s == defaultNameOf dd nameOf ++ " (default)") = 1) := by
  refine ⟨?_, ?_, ?_⟩
  · intro δ dd nameOf e
    rfl
  · intro δ dd ds nameOf
    simp only [list_devices, List.map_filterMap]
  · intro δ dd ds nameOf hnd hmem hnocoll
    rw [List.countP_map]
    have hcong : ∀ n ∈ ds.filterMap nameOf,
        (((fun s => s == defaultNameOf dd nameOf ++ " (default)") ∘
          (fun n => if n = defaultNameOf dd nameOf then n ++ " (default)" else n)) n = true ↔
          (fun s => s == defaultNameOf dd nameOf) n = true) := by
      intro n hn
      by_cases hdn : n = defaultNameOf dd nameOf
      · simp [Function.comp, hdn]
      · have hne : n ≠ defaultNameOf dd nameOf ++ " (default)" := by
          intro hcontra
          exact hnocoll (hcontra ▸ hn)
        simp [Function.comp, hdn, hne]
    rw [List.countP_congr hcong]
    exact countP_beq_eq_one hnd hmem

/-- C9 witness: on the small host with distinct names, exactly one
annotated entry. -/
theorem C9_list_devices_witness :
    (([0, 1, 2].filterMap namesEx).map
        (fun n => if n = defaultNameOf (some 0) namesEx then n ++ " (default)" else n)).countP
      (fun s => s == defaultNameOf (some 0) namesEx ++ " (default)") = 1 :=
  C9_list_devices.2.2 ℕ (some 0) [0, 1, 2] namesEx (by decide) (by decide) (by decide)

/-- C7 counterexample: in the scheduler state where the wall clock reads
earlier than lastPlayTimestamp (now = 0, lastPlay = 100, interval = 540),
the code treats the failed elapsed computation as a full interval and
reports the tone due, although wallClockNow - lastPlayTimestamp = -100 is
not >= interval, refuting the claimed exact equivalence. -/
theorem C7_counterexample :
    dueAt 540 0 100 = true ∧ ¬((540 : ℚ) ≤ 0 - 100) := by
  constructor
  · norm_num [dueAt, elapsedAt]
  · norm_num

/-- C7 (amended): whenever the wall clock has not moved backwards past
lastPlayTimestamp, a tone is due exactly when
wallClockNow - lastPlayTimestamp >= interval; wall-clock jumps (system
sleep) count toward the interval, so a 3600 s jump makes any interval up
to 3600 s due on the next poll; a due, successful play replaces
lastPlayTimestamp with the new now, after which the due test is false
until the interval elapses again.  (When the clock reads earlier than
lastPlayTimestamp, the code falls back to treating the elapsed time as
exactly one interval, making the tone due immediately.) -/
theorem C7_scheduler_due :
    (∀ interval now lastPlay : ℚ, lastPlay ≤ now →
      (dueAt interval now lastPlay = true ↔ interval ≤ now - lastPlay)) ∧
    (∀ interval lastPlay : ℚ, interval ≤ 3600 →
      dueAt interval (lastPlay + 3600) lastPlay = true) ∧
    (∀ interval nowPoll nowAfter lastPlay : ℚ,
      dueAt interval nowPoll lastPlay = true →
      schedStep interval nowPoll nowAfter true lastPlay = nowAfter) ∧
    (∀ interval nowAfter now2 : ℚ, nowAfter ≤ now2 → now2 - nowAfter < interval →
      dueAt interval now2 nowAfter = false) := by
  refine ⟨?_, ?_, ?_, ?_⟩
  · intro interval now lastPlay h
    unfold dueAt elapsedAt
    rw [if_pos h]
    exact decide_eq_true_iff
  · intro interval lastPlay h
    unfold dueAt elapsedAt
    rw [if_pos (by linarith)]
    simpa using by linarith
  · intro interval nowPoll nowAfter lastPlay h
    unfold schedStep
    rw [h]
    rfl
  · intro interval nowAfter now2 h1 h2
    unfold dueAt elapsedAt
    rw [if_pos h1]
    simpa using by linarith

/-- C7 witness: with interval 540 s and a last play 600 s ago, the tone
is due. -/
theorem C7_scheduler_due_witness : dueAt 540 600 0 = true :=
  (C7_scheduler_due.1 540 600 0 (by norm_num)).mpr (by norm_num)

/-- C8: a failed playback leaves lastPlayTimestamp unchanged; any loop
iteration that changes lastPlayTimestamp was a successful playback; with
the clock moving forward, a tone due at one poll stays due at every later
poll until a success; Scenario E: a failure at t=600 leaves the timestamp
at 0 and the successful retry at t=606 advances it to the new now. -/
theorem C8_failure_no_advance :
    (∀ interval nowPoll nowAfter lastPlay : ℚ,
      schedStep interval nowPoll nowAfter false lastPlay = lastPlay) ∧
    (∀ (interval nowPoll nowAfter lastPlay : ℚ) (playOk : Bool),
      schedStep interval nowPoll nowAfter playOk lastPlay ≠ lastPlay → playOk = true) ∧
    (∀ interval nowPoll lastPlay now2 : ℚ, lastPlay ≤ nowPoll → nowPoll ≤ now2 →
      dueAt interval nowPoll lastPlay = true → dueAt interval now2 lastPlay = true) ∧
    (schedStep 540 600 600 false 0 = 0 ∧ schedStep 540 606 607 true 0 = 607) := by
  have h1 : ∀ interval nowPoll nowAfter lastPlay : ℚ,
      schedStep interval nowPoll nowAfter false lastPlay = lastPlay := by
    intro interval nowPoll nowAfter lastPlay
    unfold schedStep
    split <;> rfl
  refine ⟨h1, ?_, ?_, ?_, ?_⟩
  · intro interval nowPoll nowAfter lastPlay playOk h
    cases playOk with
    | true => rfl
    | false => exact absurd (h1 interval nowPoll nowAfter lastPlay) h
  · intro interval nowPoll lastPlay now2 hpoll hlater h
    unfold dueAt elapsedAt at h ⊢
    rw [if_pos hpoll] at h
    rw [if_pos (hpoll.trans hlater)]
    have hd : interval ≤ nowPoll - lastPlay := by simpa using h
    simpa using by linarith
  · exact h1 540 600 600 0
  · unfold schedStep
    rw [if_pos (by norm_num [dueAt, elapsedAt])]
    rfl

/-- C8 witness: due-ness persists from the failed poll at t=600 to the
later poll at t=700. -/
theorem C8_failure_no_advance_witness : dueAt 540 700 0 = true :=
  C8_failure_no_advance.2.2.1 540 600 0 700 (by norm_num) (by norm_num)
    (by norm_num [dueAt, elapsedAt])

end Nodoze
